import Mathlib

/-!
# Verification of the `merge_tsv` utility (Plink2SampleMetadata)

Shallow embedding of `src/bin/merge_tsv.py`, a small CLI that merges
several TSV tables on a shared `SampleID` column using polars joins, and
proofs of the specification's claims about it.

The embedding models:
* a parsed TSV table (`DataFrame`): a header (list of column names) plus
  rows of cells, where a cell is `Option String` (`none` is polars' null);
* polars' `DataFrame.join(other, on=key, how=...)` for the four join modes
  the CLI exposes (`inner`, `left`, `right`, `full`), including the
  `_right` suffixing of colliding column names and, for `full` joins, the
  non-coalesced duplicate key column `<key>_right` (polars >= 1.0
  semantics, which is what the `how="full"` spelling in the source requires);
* `safe_join`, which drops a resulting `SampleID_right` column, and
  `merge_tsv`, which validates inputs and folds `safe_join` over them.

File reading is abstracted: an input file is a path together with the
result of parsing it (`Except String DataFrame`), and `merge_tsv` returns
`Except MergeError DataFrame`; returning `.ok` corresponds to the program
writing exactly that table to the output path, returning `.error`
corresponds to the program terminating with no output written.
-/

namespace MergeTsv

/-- A cell of a table: `none` is polars' null (missing value). -/
abbrev Cell := Option String

/-- A parsed TSV table: header plus rows.  Mirrors a polars `DataFrame`
as far as this program observes it. -/
structure DataFrame where
  cols : List String
  rows : List (List Cell)
deriving DecidableEq, Repr

/-- The four join modes the CLI exposes (choices of the `--join` flag). -/
inductive JoinType
  | inner
  | left
  | right
  | full
deriving DecidableEq, Repr

/-- The cell of row `r` (laid out against header `cols`) in the first
column named `k`; `none` when there is no such column. -/
def getCol : List String → List Cell → String → Cell
  | c :: cols, x :: r, k => if c = k then x else getCol cols r k
  | _, _, _ => none

/-- Row `r` (laid out against header `cols`) with every cell belonging
to a column named `k` removed. -/
def dropCells : List String → List Cell → String → List Cell
  | c :: cols, x :: r, k =>
    if c = k then dropCells cols r k else x :: dropCells cols r k
  | _, _, _ => []

/-- Polars key matching: two key cells match when both are non-null and
equal (by default nulls never join to nulls). -/
def cellEq : Cell → Cell → Bool
  | some a, some b => a = b
  | _, _ => false

/-- Polars' collision suffixing: a column of the other frame whose name
already occurs among `base` is renamed by appending `_right`. -/
def withSuffix (base : List String) (c : String) : String :=
  if c ∈ base then c ++ "_right" else c

/-- Polars `ldf.join(rdf, on := key, how := how)`.

* `inner`/`left`: join keys are coalesced (the right key column does not
  appear in the output); right non-key columns colliding with a left
  column name get the `_right` suffix; `left` keeps unmatched left rows
  with nulls in the right columns.
* `right`: mirror of `left`: all right rows are kept, the key column is
  the right frame's one, and the left non-key columns (suffixed when colliding
   with a right column name) come first.
* `full`: keys are NOT coalesced: the right key column appears, renamed
  `<key>_right` by the collision suffixing; matched rows combine both
  sides, unmatched rows of either side are kept with nulls on the other
  side. -/
def DataFrame.join (ldf rdf : DataFrame) (key : String) (how : JoinType) : DataFrame :=
  let lkey := fun lr => getCol ldf.cols lr key
  let rkey := fun rr => getCol rdf.cols rr key
  match how with
  | .inner =>
      { cols := ldf.cols ++ (rdf.cols.filter (fun c => c ≠ key)).map (withSuffix ldf.cols),
        rows := ldf.rows.flatMap (fun lr =>
          (rdf.rows.filter (fun rr => cellEq (lkey lr) (rkey rr))).map
            (fun rr => lr ++ dropCells rdf.cols rr key)) }
  | .left =>
      { cols := ldf.cols ++ (rdf.cols.filter (fun c => c ≠ key)).map (withSuffix ldf.cols),
        rows := ldf.rows.flatMap (fun lr =>
          let ms := (rdf.rows.filter (fun rr => cellEq (lkey lr) (rkey rr)))
          if ms.isEmpty then
            [lr ++ List.replicate ((rdf.cols.filter (fun c => c ≠ key)).length) none]
          else
            ms.map (fun rr => lr ++ dropCells rdf.cols rr key)) }
  | .right =>
      { cols := (ldf.cols.filter (fun c => c ≠ key)).map (withSuffix rdf.cols) ++ rdf.cols,
        rows := rdf.rows.flatMap (fun rr =>
          let ms := (ldf.rows.filter (fun lr => cellEq (lkey lr) (rkey rr)))
          if ms.isEmpty then
            [List.replicate ((ldf.cols.filter (fun c => c ≠ key)).length) none ++ rr]
          else
            ms.map (fun lr => dropCells ldf.cols lr key ++ rr)) }
  | .full =>
      { cols := ldf.cols ++ rdf.cols.map (withSuffix ldf.cols),
        rows :=
          (ldf.rows.flatMap (fun lr =>
            let ms := (rdf.rows.filter (fun rr => cellEq (lkey lr) (rkey rr)))
            if ms.isEmpty then
              [lr ++ List.replicate rdf.cols.length none]
            else
              ms.map (fun rr => lr ++ rr)))
          ++ ((rdf.rows.filter (fun rr =>
                (ldf.rows.filter (fun lr => cellEq (lkey lr) (rkey rr))).isEmpty)).map
              (fun rr => List.replicate ldf.cols.length none ++ rr)) }

/-- Polars `df.drop(c)`: remove every column named `c` (and its cells). -/
def DataFrame.drop (df : DataFrame) (c : String) : DataFrame :=
  { cols := df.cols.filter (fun x => x ≠ c),
    rows := df.rows.map (fun r => dropCells df.cols r c) }

/-- `safe_join` from `merge_tsv.py`: join on `"SampleID"` with the
selected mode, then drop the `SampleID_right` column if the join
produced one. -/
def safe_join (join_type : JoinType) (left right : DataFrame) : DataFrame :=
  let joined := left.join right "SampleID" join_type
  if "SampleID_right" ∈ joined.cols then joined.drop "SampleID_right" else joined

/-- The error outcomes of `merge_tsv`:
* `usage`: empty input list (`sys.exit(1)` after the error print);
* `ioError`: `pl.read_csv` raised while reading some input;
* `schema`: the `ValueError` for a missing `SampleID` column, carrying
  the offending file's path. -/
inductive MergeError
  | usage
  | ioError (msg : String)
  | schema (path : String)
deriving DecidableEq, Repr

instance {ε α : Type} [DecidableEq ε] [DecidableEq α] : DecidableEq (Except ε α) :=
  fun x y =>
    match x, y with
    | .error a, .error b => decidable_of_iff (a = b) (by simp)
    | .error _, .ok _ => isFalse (by simp)
    | .ok _, .error _ => isFalse (by simp)
    | .ok a, .ok b => decidable_of_iff (a = b) (by simp)

/-- An input file as the program observes it: its path and the result of
parsing it as a TSV (`pl.read_csv(f, separator="\t")`). -/
structure FileInput where
  path : String
  content : Except String DataFrame
deriving DecidableEq, Repr

/-- The list comprehension `[pl.read_csv(f, ...) for f in files]`: reads
left to right, the first read failure aborts the whole run. -/
def readAll : List FileInput → Except MergeError (List DataFrame)
  | [] => .ok []
  | f :: fs =>
    match f.content with
    | .error e => .error (.ioError e)
    | .ok df =>
      match readAll fs with
      | .error e => .error e
      | .ok dfs => .ok (df :: dfs)

/-- The validation loop over the parallel lists of files and their
parsed tables: the path of the first file (in input order) whose table
lacks a `SampleID` column, if any. -/
def findMissing : List FileInput → List DataFrame → Option String
  | f :: fs, df :: dfs =>
    if "SampleID" ∈ df.cols then findMissing fs dfs else some f.path
  | _, _ => none

/-- `merge_tsv(files, output, join_type)` from `merge_tsv.py`:
empty-input check, read all files, validate `SampleID` presence in input
order, then `reduce(safe_join, dfs)`.  `.ok df` means `df` is written to
the output path; any `.error` means the process exits with no output
written.  (The `dfs = []` inner branch is unreachable: `readAll`
preserves the list length and `files` is non-empty there.) -/
def merge_tsv (files : List FileInput) (join_type : JoinType) : Except MergeError DataFrame :=
  if files.isEmpty then .error .usage
  else
    match readAll files with
    | .error e => .error e
    | .ok dfs =>
      match findMissing files dfs with
      | some path => .error (.schema path)
      | none =>
        match dfs with
        | [] => .error .usage
        | d :: rest => .ok (rest.foldl (safe_join join_type) d)

/-- Run the merge on already-parsed tables (all reads succeed); the
paths play no role in a successful run. -/
def mergeTables (dfs : List DataFrame) (join_type : JoinType) : Except MergeError DataFrame :=
  merge_tsv (dfs.map (fun df => { path := "in.tsv", content := .ok df })) join_type

/-- The `SampleID` cell of every row, in row order. -/
def DataFrame.keyCells (df : DataFrame) : List Cell :=
  df.rows.map (fun r => getCol df.cols r "SampleID")

/-- The non-null `SampleID` values, in row order. -/
def DataFrame.keyVals (df : DataFrame) : List String :=
  df.keyCells.filterMap id

/-- Well-formed table: every row has exactly one cell per header column. -/
def DataFrame.WF (df : DataFrame) : Prop :=
  ∀ r ∈ df.rows, r.length = df.cols.length

/-- Number of rows of `rdf` whose `SampleID` cell matches the key cell
`k` under polars matching (both non-null and equal). -/
def matchCount (rdf : DataFrame) (k : Cell) : Nat :=
  (rdf.rows.filter (fun rr => cellEq k (getCol rdf.cols rr "SampleID"))).length

/-- How many output rows a left-join step produces for one left row with
key cell `k`: one per match, or a single null-padded row when there is
no match. -/
def stutterCount (rdf : DataFrame) (k : Cell) : Nat :=
  if matchCount rdf k = 0 then 1 else matchCount rdf k

instance (df : DataFrame) : Decidable df.WF := by
  unfold DataFrame.WF; infer_instance

/-- Path of the first entry lacking a `SampleID` column, for stating the
schema-validation claims over path/table pairs. -/
def firstMissing : List (String × DataFrame) → Option String
  | [] => none
  | p :: ps => if "SampleID" ∈ p.2.cols then firstMissing ps else some p.1

/-- Message of the first input whose read fails, in input order. -/
def firstReadError : List FileInput → Option String
  | [] => none
  | f :: fs =>
    match f.content with
    | .error e => some e
    | .ok _ => firstReadError fs

/-! ### Basic lemmas about reading and validation -/

theorem readAll_map_ok (l : List (String × DataFrame)) :
    readAll (l.map fun p => { path := p.1, content := .ok p.2 })
      = .ok (l.map fun p => p.2) := by
  induction l with
  | nil => rfl
  | cons p ps ih => simp [readAll, ih]

theorem readAll_tables (dfs : List DataFrame) :
    readAll (dfs.map fun df => { path := "in.tsv", content := .ok df }) = .ok dfs := by
  induction dfs with
  | nil => rfl
  | cons df dfs ih => simp [readAll, ih]

theorem readAll_ok_length :
    ∀ {files : List FileInput} {dfs : List DataFrame},
      readAll files = .ok dfs → dfs.length = files.length := by
  intro files
  induction files with
  | nil => intro dfs h; simp [readAll] at h; simp [← h]
  | cons f fs ih =>
    intro dfs h
    unfold readAll at h
    cases hc : f.content with
    | error e => rw [hc] at h; exact absurd h (by simp)
    | ok df =>
      rw [hc] at h
      cases hr : readAll fs with
      | error e => rw [hr] at h; exact absurd h (by simp)
      | ok ds =>
        rw [hr] at h
        cases h
        simp [ih hr]

theorem findMissing_tables_none {dfs : List DataFrame}
    (h : ∀ df ∈ dfs, "SampleID" ∈ df.cols) (s : String) :
    findMissing (dfs.map fun df => { path := s, content := .ok df }) dfs = none := by
  induction dfs with
  | nil => rfl
  | cons df dfs ih =>
    simp only [List.map_cons, findMissing]
    rw [if_pos (h df (by simp))]
    exact ih (fun d hd => h d (by simp [hd]))

theorem findMissing_none_mem :
    ∀ {files : List FileInput} {dfs : List DataFrame},
      findMissing files dfs = none → files.length = dfs.length →
      ∀ df ∈ dfs, "SampleID" ∈ df.cols := by
  intro files
  induction files with
  | nil =>
    intro dfs h hlen
    cases dfs with
    | nil => intro df hdf; cases hdf
    | cons d ds => simp at hlen
  | cons f fs ih =>
    intro dfs h hlen
    cases dfs with
    | nil => simp at hlen
    | cons d ds =>
      unfold findMissing at h
      by_cases hd : "SampleID" ∈ d.cols
      · rw [if_pos hd] at h
        intro df hdf
        rcases List.mem_cons.mp hdf with rfl | hm
        · exact hd
        · exact ih h (by simpa using hlen) df hm
      · rw [if_neg hd] at h
        exact absurd h (by simp)

theorem firstMissing_some :
    ∀ {l : List (String × DataFrame)} {path : String},
      firstMissing l = some path →
      ∃ df, (path, df) ∈ l ∧ "SampleID" ∉ df.cols := by
  intro l
  induction l with
  | nil => intro path h; simp [firstMissing] at h
  | cons p ps ih =>
    intro path h
    unfold firstMissing at h
    by_cases hp : "SampleID" ∈ p.2.cols
    · rw [if_pos hp] at h
      obtain ⟨df, hmem, hno⟩ := ih h
      exact ⟨df, by simp [hmem], hno⟩
    · rw [if_neg hp] at h
      cases h
      exact ⟨p.2, by simp, hp⟩

theorem findMissing_map_pairs (l : List (String × DataFrame)) :
    findMissing (l.map fun p => { path := p.1, content := .ok p.2 })
        (l.map fun p => p.2)
      = firstMissing l := by
  induction l with
  | nil => rfl
  | cons p ps ih => by_cases hp : "SampleID" ∈ p.2.cols <;> simp [findMissing, firstMissing, hp, ih]

theorem readAll_first_error :
    ∀ {files : List FileInput} {e : String},
      firstReadError files = some e → readAll files = .error (.ioError e) := by
  intro files
  induction files with
  | nil => intro e h; simp [firstReadError] at h
  | cons f fs ih =>
    intro e h
    unfold firstReadError at h
    unfold readAll
    cases hc : f.content with
    | error msg => rw [hc] at h; cases h; rfl
    | ok df => rw [hc] at h; rw [ih h]

theorem merge_tsv_ok_inv {files : List FileInput} {jt : JoinType} {out : DataFrame}
    (h : merge_tsv files jt = .ok out) :
    ∃ d rest, readAll files = .ok (d :: rest) ∧
      out = rest.foldl (safe_join jt) d := by
  unfold merge_tsv at h
  by_cases he : files.isEmpty
  · rw [if_pos he] at h; exact absurd h (by simp)
  · rw [if_neg he] at h
    cases hr : readAll files with
    | error e => rw [hr] at h; exact absurd h (by simp)
    | ok dfs =>
      rw [hr] at h
      dsimp only at h
      cases hm : findMissing files dfs with
      | some p => rw [hm] at h; exact absurd h (by simp)
      | none =>
        rw [hm] at h
        dsimp only at h
        cases dfs with
        | nil => exact absurd h (by simp)
        | cons d rest =>
          refine ⟨d, rest, rfl, ?_⟩
          cases h
          rfl

theorem mergeTables_eq_fold {d : DataFrame} {rest : List DataFrame} (jt : JoinType)
    (h : ∀ df ∈ d :: rest, "SampleID" ∈ df.cols) :
    mergeTables (d :: rest) jt = .ok (rest.foldl (safe_join jt) d) := by
  unfold mergeTables merge_tsv
  rw [if_neg (by simp)]
  rw [readAll_tables (d :: rest)]
  dsimp only
  rw [findMissing_tables_none h "in.tsv"]

theorem mergeTables_ok_inv {dfs : List DataFrame} {jt : JoinType} {out : DataFrame}
    (h : mergeTables dfs jt = .ok out) :
    (∀ df ∈ dfs, "SampleID" ∈ df.cols) ∧
      ∃ d rest, dfs = d :: rest ∧ out = rest.foldl (safe_join jt) d := by
  unfold mergeTables merge_tsv at h
  cases dfs with
  | nil => exact absurd h (by simp)
  | cons d rest =>
    rw [if_neg (by simp)] at h
    rw [readAll_tables (d :: rest)] at h
    dsimp only at h
    cases hm : findMissing ((d :: rest).map fun df => { path := "in.tsv", content := .ok df })
        (d :: rest) with
    | some p => rw [hm] at h; exact absurd h (by simp)
    | none =>
      rw [hm] at h
      dsimp only at h
      cases h
      refine ⟨findMissing_none_mem hm (by simp), d, rest, rfl, rfl⟩

/-! ### Lemmas for the `SampleID_right` drop -/

theorem safe_join_no_SampleID_right (jt : JoinType) (l r : DataFrame) :
    "SampleID_right" ∉ (safe_join jt l r).cols := by
  unfold safe_join
  by_cases hm : "SampleID_right" ∈ (l.join r "SampleID" jt).cols
  · rw [if_pos hm]
    simp [DataFrame.drop, List.mem_filter]
  · rw [if_neg hm]
    exact hm

theorem foldl_safe_join_no_SampleID_right (jt : JoinType) :
    ∀ (l : List DataFrame) (acc : DataFrame),
      "SampleID_right" ∉ acc.cols →
      "SampleID_right" ∉ (l.foldl (safe_join jt) acc).cols := by
  intro l
  induction l with
  | nil => intro acc h; exact h
  | cons r rest ih =>
    intro acc _
    simp only [List.foldl_cons]
    exact ih _ (safe_join_no_SampleID_right jt acc r)

/-! ### Lemmas about key extraction and row shape -/

theorem getCol_append {cols1 : List String} {r1 : List Cell} (cols2 : List String)
    (r2 : List Cell) (hlen : r1.length = cols1.length) {k : String} (hk : k ∈ cols1) :
    getCol (cols1 ++ cols2) (r1 ++ r2) k = getCol cols1 r1 k := by
  induction cols1 generalizing r1 with
  | nil => cases hk
  | cons c cols ih =>
    cases r1 with
    | nil => simp at hlen
    | cons x r =>
      by_cases hc : c = k
      · simp [getCol, hc]
      · have hk2 : k ∈ cols := by
          rcases List.mem_cons.mp hk with h | h
          · exact absurd h.symm hc
          · exact h
        simp only [List.cons_append, getCol, if_neg hc]
        exact ih (by simpa using hlen) hk2

theorem dropCells_length {cols : List String} {r : List Cell}
    (hlen : r.length = cols.length) (k : String) :
    (dropCells cols r k).length = (cols.filter (fun c => c ≠ k)).length := by
  induction cols generalizing r with
  | nil =>
    cases r with
    | nil => rfl
    | cons x r => simp at hlen
  | cons c cols ih =>
    cases r with
    | nil => simp at hlen
    | cons x r =>
      by_cases hc : c = k
      · simp [dropCells, hc, List.filter_cons, ih (by simpa using hlen)]
      · simp [dropCells, hc, List.filter_cons, ih (by simpa using hlen)]

theorem getCol_dropCells {cols : List String} {r : List Cell}
    (hlen : r.length = cols.length) {k d : String} (hkd : k ≠ d) :
    getCol (cols.filter (fun c => c ≠ d)) (dropCells cols r d) k = getCol cols r k := by
  induction cols generalizing r with
  | nil =>
    cases r with
    | nil => rfl
    | cons x r => simp at hlen
  | cons c cols ih =>
    cases r with
    | nil => simp at hlen
    | cons x r =>
      have hlen2 : r.length = cols.length := by simpa using hlen
      have hdk : ¬ d = k := fun h => hkd h.symm
      by_cases hc : c = d
      · have hck : ¬ c = k := fun h => hkd (h ▸ hc)
        simp only [dropCells, getCol, List.filter_cons, hc, hck, hdk, if_pos, if_neg,
          ite_false]
        simp [hdk]
        simpa using ih hlen2
      · by_cases hck : c = k
        · simp [dropCells, getCol, List.filter_cons, hc, hck, hkd]
        · simp [dropCells, getCol, List.filter_cons, hc, hck]
          simpa using ih hlen2

theorem cellEq_eq_true {a b : Cell} :
    cellEq a b = true ↔ ∃ w, a = some w ∧ b = some w := by
  cases a <;> cases b <;> simp [cellEq, eq_comm]

theorem mem_keyVals {df : DataFrame} {v : String} :
    v ∈ df.keyVals ↔ some v ∈ df.keyCells := by
  constructor
  · intro h
    simp only [DataFrame.keyVals, List.mem_filterMap, id_eq] at h
    obtain ⟨a, ha, rfl⟩ := h
    exact ha
  · intro h
    simp only [DataFrame.keyVals, List.mem_filterMap, id_eq]
    exact ⟨some v, h, rfl⟩

/-! ### Well-formedness is preserved by joins and drops -/

theorem wf_drop {df : DataFrame} (h : df.WF) (c : String) : (df.drop c).WF := by
  intro row hrow
  simp only [DataFrame.drop, List.mem_map] at hrow
  obtain ⟨r, hr, rfl⟩ := hrow
  show (dropCells df.cols r c).length = ((df.cols.filter (fun x => x ≠ c))).length
  exact dropCells_length (h r hr) c

theorem wf_join {ldf rdf : DataFrame} (hl : ldf.WF) (hr : rdf.WF)
    (key : String) (jt : JoinType) : (ldf.join rdf key jt).WF := by
  cases jt
  case inner =>
    intro row hrow
    simp only [DataFrame.join, List.mem_flatMap, List.mem_map, List.mem_filter] at hrow
    obtain ⟨lr, hlr, rr, ⟨hrr, _⟩, rfl⟩ := hrow
    simp [DataFrame.join, hl lr hlr, dropCells_length (hr rr hrr)]
  case left =>
    intro row hrow
    simp only [DataFrame.join, List.mem_flatMap] at hrow
    obtain ⟨lr, hlr, hrow⟩ := hrow
    split at hrow
    · simp only [List.mem_singleton] at hrow
      subst hrow
      simp [DataFrame.join, hl lr hlr]
    · simp only [List.mem_map, List.mem_filter] at hrow
      obtain ⟨rr, ⟨hrr, _⟩, rfl⟩ := hrow
      simp [DataFrame.join, hl lr hlr, dropCells_length (hr rr hrr)]
  case right =>
    intro row hrow
    simp only [DataFrame.join, List.mem_flatMap] at hrow
    obtain ⟨rr, hrr, hrow⟩ := hrow
    split at hrow
    · simp only [List.mem_singleton] at hrow
      subst hrow
      simp [DataFrame.join, hr rr hrr]
    · simp only [List.mem_map, List.mem_filter] at hrow
      obtain ⟨lr, ⟨hlr, _⟩, rfl⟩ := hrow
      simp [DataFrame.join, hr rr hrr, dropCells_length (hl lr hlr)]
  case full =>
    intro row hrow
    simp only [DataFrame.join, List.mem_append] at hrow
    rcases hrow with hrow | hrow
    · simp only [List.mem_flatMap] at hrow
      obtain ⟨lr, hlr, hrow⟩ := hrow
      split at hrow
      · simp only [List.mem_singleton] at hrow
        subst hrow
        simp [DataFrame.join, hl lr hlr]
      · simp only [List.mem_map, List.mem_filter] at hrow
        obtain ⟨rr, ⟨hrr, _⟩, rfl⟩ := hrow
        simp [DataFrame.join, hl lr hlr, hr rr hrr]
    · simp only [List.mem_map, List.mem_filter] at hrow
      obtain ⟨rr, hrr, rfl⟩ := hrow
      simp [DataFrame.join, hr rr hrr.1]

theorem wf_safe_join {l r : DataFrame} (hl : l.WF) (hr : r.WF) (jt : JoinType) :
    (safe_join jt l r).WF := by
  unfold safe_join
  dsimp only
  split_ifs with hm
  · exact wf_drop (wf_join hl hr _ _) _
  · exact wf_join hl hr _ _

/-! ### The `SampleID` column survives every join step -/

theorem mem_safe_join_cols {l r : DataFrame} (jt : JoinType) {c : String}
    (hc : c ≠ "SampleID_right") (h : c ∈ (l.join r "SampleID" jt).cols) :
    c ∈ (safe_join jt l r).cols := by
  unfold safe_join
  dsimp only
  split_ifs with hm
  · simp [DataFrame.drop, List.mem_filter, h, hc]
  · exact h

theorem SampleID_mem_join_cols {l r : DataFrame} (jt : JoinType)
    (h1 : "SampleID" ∈ l.cols) (h2 : "SampleID" ∈ r.cols) :
    "SampleID" ∈ (l.join r "SampleID" jt).cols := by
  cases jt <;> simp [DataFrame.join, h1, h2]

/-! ### Key cells across a drop and a `safe_join` -/

theorem keyCells_drop {df : DataFrame} (h : df.WF) {d : String} (hd : "SampleID" ≠ d) :
    (df.drop d).keyCells = df.keyCells := by
  simp only [DataFrame.keyCells, DataFrame.drop, List.map_map]
  exact List.map_congr_left (fun r hr => getCol_dropCells (h r hr) hd)

theorem keyCells_safe_join {l r : DataFrame} (jt : JoinType)
    (hwf : (l.join r "SampleID" jt).WF) :
    (safe_join jt l r).keyCells = (l.join r "SampleID" jt).keyCells := by
  unfold safe_join
  dsimp only
  split_ifs with hm
  · exact keyCells_drop hwf (by decide)
  · rfl

/-! ### Claim theorems: validation and error handling -/

/-- C5: calling `merge_tsv` with an empty file list fails immediately
with the usage error, for every join mode: the result is
`.error .usage`, so nothing is read and no output is produced. -/
theorem C5_empty_files_usage_error (jt : JoinType) :
    merge_tsv [] jt = .error .usage := rfl

/-- C2: if every input parses but some table lacks a column literally
named `SampleID` (case-sensitive), the merge fails with a schema error
carrying the path of the first offending file — so no output table is
produced — and that path indeed belongs to an input lacking the column. -/
theorem C2_missing_SampleID_schema_error
    (l : List (String × DataFrame)) (jt : JoinType) (path : String)
    (h : firstMissing l = some path) :
    merge_tsv (l.map fun p => { path := p.1, content := .ok p.2 }) jt
        = .error (.schema path) ∧
      ∃ df, (path, df) ∈ l ∧ "SampleID" ∉ df.cols := by
  constructor
  · cases l with
    | nil => simp [firstMissing] at h
    | cons p ps =>
      unfold merge_tsv
      rw [if_neg (by simp)]
      rw [readAll_map_ok (p :: ps)]
      dsimp only
      rw [findMissing_map_pairs (p :: ps), h]
  · exact firstMissing_some h

theorem C2_missing_SampleID_schema_error_witness :
    firstMissing [("a.tsv", { cols := ["SampleID", "X"], rows := [] }),
                  ("b.tsv", { cols := ["Z"], rows := [] })] = some "b.tsv" ∧
    merge_tsv [{ path := "a.tsv", content := .ok { cols := ["SampleID", "X"], rows := [] } },
               { path := "b.tsv", content := .ok { cols := ["Z"], rows := [] } }] .full
        = .error (.schema "b.tsv") ∧
      ∃ df, ("b.tsv", df) ∈
          [("a.tsv", ({ cols := ["SampleID", "X"], rows := [] } : DataFrame)),
           ("b.tsv", { cols := ["Z"], rows := [] })] ∧ "SampleID" ∉ df.cols :=
  ⟨by decide,
    C2_missing_SampleID_schema_error
      [("a.tsv", { cols := ["SampleID", "X"], rows := [] }),
       ("b.tsv", { cols := ["Z"], rows := [] })] .full "b.tsv" (by decide)⟩

/-- C10: every input file is read before any `SampleID` validation runs:
whenever some input fails to read, `merge_tsv` fails with the first read
error in input order, never with a schema error — even if a table read
earlier lacks the `SampleID` column. -/
theorem C10_read_error_preempts_schema_error
    (files : List FileInput) (jt : JoinType) (e : String)
    (h : firstReadError files = some e) :
    merge_tsv files jt = .error (.ioError e) := by
  cases files with
  | nil => simp [firstReadError] at h
  | cons f fs =>
    unfold merge_tsv
    rw [if_neg (by simp)]
    rw [readAll_first_error h]

theorem C10_read_error_preempts_schema_error_witness :
    firstReadError [{ path := "a.tsv", content := .ok { cols := ["Z"], rows := [] } },
                    { path := "b.tsv", content := .error "parse error" }]
        = some "parse error" ∧
    "SampleID" ∉ ({ cols := ["Z"], rows := [] } : DataFrame).cols ∧
    merge_tsv [{ path := "a.tsv", content := .ok { cols := ["Z"], rows := [] } },
               { path := "b.tsv", content := .error "parse error" }] .full
        = .error (.ioError "parse error") :=
  ⟨by decide, by decide,
    C10_read_error_preempts_schema_error
      [{ path := "a.tsv", content := .ok { cols := ["Z"], rows := [] } },
       { path := "b.tsv", content := .error "parse error" }] .full "parse error" (by decide)⟩

/-! ### Claim theorems: algebraic properties of the fold -/

/-- C7: merging a single table (with a `SampleID` column) under any
join mode returns exactly that table: the left-to-right reduction over
a one-element list performs no join at all. -/
theorem C7_single_table_merge_identity (f : DataFrame) (jt : JoinType)
    (h : "SampleID" ∈ f.cols) :
    mergeTables [f] jt = .ok f :=
  mergeTables_eq_fold jt (by simpa using h)

theorem C7_single_table_merge_identity_witness :
    "SampleID" ∈ ({ cols := ["SampleID", "X"], rows := [[some "1", some "10"]] } : DataFrame).cols ∧
    mergeTables [{ cols := ["SampleID", "X"], rows := [[some "1", some "10"]] }] .full
      = .ok { cols := ["SampleID", "X"], rows := [[some "1", some "10"]] } :=
  ⟨by decide,
    C7_single_table_merge_identity
      { cols := ["SampleID", "X"], rows := [[some "1", some "10"]] } .full (by decide)⟩

/-- C8: the left join is not commutative: for these two tables, merging
them as `[A, B]` with `join_mode = left` and as `[B, A]` with
`join_mode = left` produces different outputs. -/
theorem C8_left_join_not_commutative :
    mergeTables
        [{ cols := ["SampleID", "X"], rows := [[some "1", some "10"], [some "2", some "20"]] },
         { cols := ["SampleID", "Y"], rows := [[some "2", some "200"], [some "3", some "300"]] }]
        .left
      ≠ mergeTables
        [{ cols := ["SampleID", "Y"], rows := [[some "2", some "200"], [some "3", some "300"]] },
         { cols := ["SampleID", "X"], rows := [[some "1", some "10"], [some "2", some "20"]] }]
        .left := by
  decide

/-- C1 (code bug): with `join_mode = full` the output rows' `SampleID`
values are NOT the union of the inputs' `SampleID` values.  Polars'
`full` join keeps both key columns (the right one as `SampleID_right`)
and `safe_join` then drops `SampleID_right`, so a right-only sample
keeps its row but its `SampleID` cell is null: here `"2"` occurs in the
second input's `SampleID` column yet not in the output's, while the
output does contain the row with nulls for the missing cells. -/
theorem C1_full_join_nulls_right_only_SampleIDs :
    mergeTables
        [{ cols := ["SampleID", "X"], rows := [[some "1", some "10"]] },
         { cols := ["SampleID", "Y"], rows := [[some "2", some "200"]] }] .full
      = .ok { cols := ["SampleID", "X", "Y"],
              rows := [[some "1", some "10", none], [none, none, some "200"]] } ∧
    "2" ∈ DataFrame.keyVals ({ cols := ["SampleID", "Y"], rows := [[some "2", some "200"]] }) ∧
    "2" ∉ DataFrame.keyVals ({ cols := ["SampleID", "X", "Y"], rows := [[some "1", some "10", none], [none, none, some "200"]] }) := by
  decide

/-- C9: after every pairwise join step any column literally named
`SampleID_right` is dropped, so whenever at least two files merge
successfully the output has no `SampleID_right` column — even when an
input table carries a genuine data column of that name, which is then
silently absent from the output. -/
theorem C9_SampleID_right_always_dropped
    (files : List FileInput) (jt : JoinType) (out : DataFrame)
    (hlen : 2 ≤ files.length) (h : merge_tsv files jt = .ok out) :
    "SampleID_right" ∉ out.cols := by
  obtain ⟨d, rest, hread, hout⟩ := merge_tsv_ok_inv h
  have hlen2 : 2 ≤ (d :: rest).length := by
    rw [readAll_ok_length hread]; exact hlen
  cases rest with
  | nil => simp at hlen2
  | cons r rest2 =>
    subst hout
    simp only [List.foldl_cons]
    exact foldl_safe_join_no_SampleID_right jt rest2 (safe_join jt d r)
      (safe_join_no_SampleID_right jt d r)

theorem C9_SampleID_right_always_dropped_witness :
    2 ≤ ([{ path := "a.tsv",
            content := .ok { cols := ["SampleID", "X"],
                             rows := [[some "1", some "10"], [some "2", some "20"]] } },
          { path := "b.tsv",
            content := .ok { cols := ["SampleID", "SampleID_right"],
                             rows := [[some "1", some "q"]] } }] : List FileInput).length ∧
    merge_tsv
        [{ path := "a.tsv",
           content := .ok { cols := ["SampleID", "X"],
                            rows := [[some "1", some "10"], [some "2", some "20"]] } },
         { path := "b.tsv",
           content := .ok { cols := ["SampleID", "SampleID_right"],
                            rows := [[some "1", some "q"]] } }] .inner
      = .ok { cols := ["SampleID", "X"], rows := [[some "1", some "10"]] } ∧
    "SampleID_right" ∉
      ({ cols := ["SampleID", "X"], rows := [[some "1", some "10"]] } : DataFrame).cols :=
  ⟨by decide, by decide,
    C9_SampleID_right_always_dropped
      [{ path := "a.tsv",
         content := .ok { cols := ["SampleID", "X"],
                          rows := [[some "1", some "10"], [some "2", some "20"]] } },
       { path := "b.tsv",
         content := .ok { cols := ["SampleID", "SampleID_right"],
                          rows := [[some "1", some "q"]] } }] .inner
      { cols := ["SampleID", "X"], rows := [[some "1", some "10"]] }
      (by decide) (by decide)⟩

/-! ### Inner joins intersect the key sets -/

theorem keyCells_inner_join {l r : DataFrame} (hl : l.WF) (hk : "SampleID" ∈ l.cols)
    (v : String) :
    some v ∈ (l.join r "SampleID" .inner).keyCells ↔
      some v ∈ l.keyCells ∧ some v ∈ r.keyCells := by
  constructor
  · intro h
    simp only [DataFrame.keyCells, DataFrame.join, List.map_flatMap, List.mem_flatMap,
      List.map_map, List.mem_map, List.mem_filter, Function.comp] at h
    obtain ⟨lr, hlr, rr, ⟨hrr, hmatch⟩, hkey⟩ := h
    rw [getCol_append _ _ (hl lr hlr) hk] at hkey
    rw [cellEq_eq_true] at hmatch
    obtain ⟨w, hw1, hw2⟩ := hmatch
    have hwv : w = v := by
      rw [hw1] at hkey
      exact Option.some_injective _ hkey
    subst hwv
    constructor
    · simp only [DataFrame.keyCells, List.mem_map]
      exact ⟨lr, hlr, hkey⟩
    · simp only [DataFrame.keyCells, List.mem_map]
      exact ⟨rr, hrr, hw2⟩
  · rintro ⟨h1, h2⟩
    simp only [DataFrame.keyCells, List.mem_map] at h1 h2
    obtain ⟨lr, hlr, hkl⟩ := h1
    obtain ⟨rr, hrr, hkr⟩ := h2
    simp only [DataFrame.keyCells, DataFrame.join, List.map_flatMap, List.mem_flatMap,
      List.map_map, List.mem_map, List.mem_filter, Function.comp]
    refine ⟨lr, hlr, rr, ⟨hrr, ?_⟩, ?_⟩
    · rw [cellEq_eq_true]
      exact ⟨v, hkl, hkr⟩
    · rw [getCol_append _ _ (hl lr hlr) hk]
      exact hkl

theorem foldl_inner_keys :
    ∀ (rest : List DataFrame) (acc : DataFrame),
      acc.WF → "SampleID" ∈ acc.cols →
      (∀ df ∈ rest, df.WF ∧ "SampleID" ∈ df.cols) →
      (rest.foldl (safe_join .inner) acc).WF ∧
      "SampleID" ∈ (rest.foldl (safe_join .inner) acc).cols ∧
      ∀ v : String, some v ∈ (rest.foldl (safe_join .inner) acc).keyCells ↔
        (some v ∈ acc.keyCells ∧ ∀ df ∈ rest, some v ∈ df.keyCells) := by
  intro rest
  induction rest with
  | nil =>
    intro acc h1 h2 _
    exact ⟨h1, h2, fun v => by simp⟩
  | cons r rest ih =>
    intro acc h1 h2 h3
    obtain ⟨hrwf, hrk⟩ := h3 r (by simp)
    have hjwf0 : (acc.join r "SampleID" .inner).WF := wf_join h1 hrwf _ _
    have hjwf : (safe_join .inner acc r).WF := wf_safe_join h1 hrwf .inner
    have hjk : "SampleID" ∈ (safe_join .inner acc r).cols :=
      mem_safe_join_cols .inner (by decide) (SampleID_mem_join_cols .inner h2 hrk)
    simp only [List.foldl_cons]
    obtain ⟨w1, w2, w3⟩ := ih (safe_join .inner acc r) hjwf hjk
      (fun df hdf => h3 df (by simp [hdf]))
    refine ⟨w1, w2, fun v => ?_⟩
    rw [w3 v, keyCells_safe_join .inner hjwf0, keyCells_inner_join h1 h2 v]
    simp only [List.forall_mem_cons]
    tauto

/-- C3: for well-formed inputs, whenever `merge_tsv` succeeds with
`join_mode = inner` the output's `SampleID` values are exactly the
intersection of the `SampleID` values of all input tables. -/
theorem C3_inner_join_intersection (dfs : List DataFrame) (out : DataFrame)
    (hwf : ∀ df ∈ dfs, df.WF)
    (hm : mergeTables dfs .inner = .ok out) :
    ∀ v : String, v ∈ out.keyVals ↔ ∀ df ∈ dfs, v ∈ df.keyVals := by
  obtain ⟨hkeys, d, rest, rfl, rfl⟩ := mergeTables_ok_inv hm
  obtain ⟨_, _, w3⟩ := foldl_inner_keys rest d (hwf d (by simp)) (hkeys d (by simp))
    (fun df hdf => ⟨hwf df (by simp [hdf]), hkeys df (by simp [hdf])⟩)
  intro v
  rw [mem_keyVals, w3 v]
  simp only [List.forall_mem_cons]
  simp [mem_keyVals]

theorem C3_inner_join_intersection_witness :
    (∀ df ∈ [({ cols := ["SampleID", "X"], rows := [[some "1", some "10"], [some "2", some "20"]] } : DataFrame),
              { cols := ["SampleID", "Y"], rows := [[some "2", some "200"], [some "3", some "300"]] }], df.WF) ∧
    mergeTables
        [{ cols := ["SampleID", "X"], rows := [[some "1", some "10"], [some "2", some "20"]] },
         { cols := ["SampleID", "Y"], rows := [[some "2", some "200"], [some "3", some "300"]] }] .inner
      = .ok { cols := ["SampleID", "X", "Y"], rows := [[some "2", some "20", some "200"]] } ∧
    ∀ v : String,
      v ∈ DataFrame.keyVals ({ cols := ["SampleID", "X", "Y"], rows := [[some "2", some "20", some "200"]] }) ↔
      ∀ df ∈ [({ cols := ["SampleID", "X"], rows := [[some "1", some "10"], [some "2", some "20"]] } : DataFrame),
              { cols := ["SampleID", "Y"], rows := [[some "2", some "200"], [some "3", some "300"]] }],
        v ∈ df.keyVals :=
  ⟨by decide, by decide,
    C3_inner_join_intersection
      [{ cols := ["SampleID", "X"], rows := [[some "1", some "10"], [some "2", some "20"]] },
       { cols := ["SampleID", "Y"], rows := [[some "2", some "200"], [some "3", some "300"]] }]
      { cols := ["SampleID", "X", "Y"], rows := [[some "2", some "20", some "200"]] }
      (by decide) (by decide)⟩

/-! ### Left joins stutter the left key column -/

theorem replicate_flatMap_replicate {α : Type} (a : α) (m : Nat) (n : α → Nat) :
    (List.replicate m a).flatMap (fun k => List.replicate (n k) k)
      = List.replicate (m * n a) a := by
  induction m with
  | zero => simp
  | succ m ih =>
    rw [List.replicate_succ, List.flatMap_cons, ih, Nat.succ_mul, Nat.add_comm,
      List.replicate_add]

theorem flatMap_replicate_trans {α : Type} (l : List α) (n1 n2 : α → Nat) :
    ((l.flatMap fun k => List.replicate (n1 k) k).flatMap fun k => List.replicate (n2 k) k)
      = l.flatMap fun k => List.replicate (n1 k * n2 k) k := by
  induction l with
  | nil => rfl
  | cons a l ih =>
    rw [List.flatMap_cons, List.flatMap_cons, List.flatMap_append, ih,
      replicate_flatMap_replicate]

theorem flatMap_replicate_one {α : Type} (l : List α) :
    (l.flatMap fun k => List.replicate 1 k) = l := by
  induction l with
  | nil => rfl
  | cons a l ih => rw [List.flatMap_cons, ih]; rfl

theorem map_eq_replicate_of_const {α β : Type} (l : List α) (f : α → β) (b : β)
    (h : ∀ a ∈ l, f a = b) : l.map f = List.replicate l.length b := by
  induction l with
  | nil => rfl
  | cons a l ih =>
    simp only [List.map_cons, List.length_cons, List.replicate_succ, h a (by simp)]
    rw [ih (fun x hx => h x (by simp [hx]))]

theorem keyCells_left_join {l r : DataFrame} (hl : l.WF) (hk : "SampleID" ∈ l.cols) :
    (l.join r "SampleID" .left).keyCells
      = l.keyCells.flatMap (fun k => List.replicate (stutterCount r k) k) := by
  simp only [DataFrame.keyCells, DataFrame.join, List.map_flatMap, List.flatMap_map]
  apply List.flatMap_congr
  intro lr hlr
  by_cases hms : (r.rows.filter
      (fun rr => cellEq (getCol l.cols lr "SampleID") (getCol r.cols rr "SampleID"))).isEmpty
  · rw [if_pos hms]
    have h0 : matchCount r (getCol l.cols lr "SampleID") = 0 := by
      simpa [matchCount, List.isEmpty_iff, List.length_eq_zero] using hms
    simp only [List.map_cons, List.map_nil, stutterCount, h0, if_pos rfl]
    rw [getCol_append _ _ (hl lr hlr) hk]
    rfl
  · rw [if_neg hms]
    have h0 : matchCount r (getCol l.cols lr "SampleID") ≠ 0 := by
      simpa [matchCount, List.isEmpty_iff, List.length_eq_zero] using hms
    simp only [stutterCount, if_neg h0, List.map_map]
    exact map_eq_replicate_of_const _ _ _ (fun rr _ => getCol_append _ _ (hl lr hlr) hk)

theorem foldl_left_keys :
    ∀ (rest : List DataFrame) (acc : DataFrame),
      acc.WF → "SampleID" ∈ acc.cols →
      (∀ df ∈ rest, df.WF ∧ "SampleID" ∈ df.cols) →
      (rest.foldl (safe_join .left) acc).WF ∧
      "SampleID" ∈ (rest.foldl (safe_join .left) acc).cols ∧
      ∃ n : Cell → Nat, (∀ k, 0 < n k) ∧
        (rest.foldl (safe_join .left) acc).keyCells
          = acc.keyCells.flatMap (fun k => List.replicate (n k) k) := by
  intro rest
  induction rest with
  | nil =>
    intro acc h1 h2 _
    refine ⟨h1, h2, fun _ => 1, fun k => Nat.one_pos, ?_⟩
    rw [flatMap_replicate_one]
    simp only [List.foldl_nil]
  | cons r rest ih =>
    intro acc h1 h2 h3
    obtain ⟨hrwf, hrk⟩ := h3 r (by simp)
    have hjwf0 : (acc.join r "SampleID" .left).WF := wf_join h1 hrwf _ _
    have hjwf : (safe_join .left acc r).WF := wf_safe_join h1 hrwf .left
    have hjk : "SampleID" ∈ (safe_join .left acc r).cols :=
      mem_safe_join_cols .left (by decide) (SampleID_mem_join_cols .left h2 hrk)
    simp only [List.foldl_cons]
    obtain ⟨w1, w2, n2, hn2, hkc2⟩ := ih (safe_join .left acc r) hjwf hjk
      (fun df hdf => h3 df (by simp [hdf]))
    refine ⟨w1, w2, fun k => stutterCount r k * n2 k, ?_, ?_⟩
    · intro k
      apply Nat.mul_pos _ (hn2 k)
      unfold stutterCount
      split_ifs with h0
      · exact Nat.one_pos
      · exact Nat.pos_of_ne_zero h0
    · rw [hkc2, keyCells_safe_join .left hjwf0, keyCells_left_join h1 h2,
        flatMap_replicate_trans]

/-- C6: for well-formed inputs, whenever `merge_tsv` succeeds with
`join_mode = left` the output's `SampleID` values are exactly those of
the first input table, and the output key column is the first table's
key column with each entry repeated in place (once per match produced by
the successive left joins), i.e. the first file's keys in their original
order. -/
theorem C6_left_join_keeps_first_file_keys
    (A : DataFrame) (rest : List DataFrame) (out : DataFrame)
    (hwf : ∀ df ∈ A :: rest, df.WF)
    (hm : mergeTables (A :: rest) .left = .ok out) :
    (∀ v : String, v ∈ out.keyVals ↔ v ∈ A.keyVals) ∧
    ∃ n : Cell → Nat, (∀ k, 0 < n k) ∧
      out.keyCells = A.keyCells.flatMap (fun k => List.replicate (n k) k) := by
  obtain ⟨hkeys, d, rest2, heq, hout⟩ := mergeTables_ok_inv hm
  obtain ⟨rfl, rfl⟩ : A = d ∧ rest = rest2 := by
    injection heq with h1 h2
    exact ⟨h1, h2⟩
  subst hout
  obtain ⟨_, _, n, hn, hkc⟩ := foldl_left_keys rest A (hwf A (by simp)) (hkeys A (by simp))
    (fun df hdf => ⟨hwf df (by simp [hdf]), hkeys df (by simp [hdf])⟩)
  refine ⟨?_, n, hn, hkc⟩
  intro v
  rw [mem_keyVals, mem_keyVals, hkc]
  simp only [List.mem_flatMap, List.mem_replicate]
  constructor
  · rintro ⟨k, hk, _, rfl⟩
    exact hk
  · intro hv
    exact ⟨some v, hv, Nat.pos_iff_ne_zero.mp (hn (some v)), rfl⟩

theorem C6_left_join_keeps_first_file_keys_witness :
    (∀ df ∈ [({ cols := ["SampleID", "X"], rows := [[some "1", some "10"], [some "2", some "20"]] } : DataFrame),
              { cols := ["SampleID", "Y"], rows := [[some "2", some "200"], [some "3", some "300"]] }], df.WF) ∧
    mergeTables
        [{ cols := ["SampleID", "X"], rows := [[some "1", some "10"], [some "2", some "20"]] },
         { cols := ["SampleID", "Y"], rows := [[some "2", some "200"], [some "3", some "300"]] }] .left
      = .ok { cols := ["SampleID", "X", "Y"], rows := [[some "1", some "10", none], [some "2", some "20", some "200"]] } ∧
    ((∀ v : String,
        v ∈ DataFrame.keyVals ({ cols := ["SampleID", "X", "Y"], rows := [[some "1", some "10", none], [some "2", some "20", some "200"]] }) ↔
        v ∈ DataFrame.keyVals ({ cols := ["SampleID", "X"], rows := [[some "1", some "10"], [some "2", some "20"]] })) ∧
      ∃ n : Cell → Nat, (∀ k, 0 < n k) ∧
        DataFrame.keyCells ({ cols := ["SampleID", "X", "Y"], rows := [[some "1", some "10", none], [some "2", some "20", some "200"]] })
          = (DataFrame.keyCells ({ cols := ["SampleID", "X"], rows := [[some "1", some "10"], [some "2", some "20"]] })).flatMap
              (fun k => List.replicate (n k) k)) :=
  ⟨by decide, by decide,
    C6_left_join_keeps_first_file_keys
      { cols := ["SampleID", "X"], rows := [[some "1", some "10"], [some "2", some "20"]] }
      [{ cols := ["SampleID", "Y"], rows := [[some "2", some "200"], [some "3", some "300"]] }]
      { cols := ["SampleID", "X", "Y"], rows := [[some "1", some "10", none], [some "2", some "20", some "200"]] }
      (by decide) (by decide)⟩

/-! ### String lemmas about the `_right` suffix -/

theorem append_right_ne_SampleID (s : String) : ¬ s ++ "_right" = "SampleID" := by
  intro h
  have hd : s.data ++ "_right".data = "SampleID".data := by
    rw [← String.data_append, h]
  have hr := congrArg List.reverse hd
  rw [List.reverse_append] at hr
  have h1 : "_right".data.reverse = ['t', 'h', 'g', 'i', 'r', '_'] := by decide
  have h2 : "SampleID".data.reverse = ['D', 'I', 'e', 'l', 'p', 'm', 'a', 'S'] := by decide
  rw [h1, h2] at hr
  injection hr with hh _
  exact absurd hh (by decide)

theorem append_right_inj {s t : String} : s ++ "_right" = t ++ "_right" ↔ s = t := by
  constructor
  · intro h
    have hd : s.data ++ "_right".data = t.data ++ "_right".data := by
      rw [← String.data_append, ← String.data_append, h]
    have h2 := List.append_cancel_right hd
    cases s
    cases t
    simp only at h2
    rw [h2]
  · intro h
    rw [h]

theorem append_right_eq_SampleID_right {s : String} :
    s ++ "_right" = "SampleID_right" ↔ s = "SampleID" := by
  have h : "SampleID_right" = "SampleID" ++ "_right" := by decide
  rw [h, append_right_inj]

theorem withSuffix_ne_SampleID {base : List String} {c : String} (hc : c ≠ "SampleID") :
    withSuffix base c ≠ "SampleID" := by
  unfold withSuffix
  split_ifs with hmem
  · exact append_right_ne_SampleID c
  · exact hc

/-! ### Column bookkeeping of a single join step -/

theorem count_SampleID_safe_join {l r : DataFrame} (jt : JoinType) :
    (safe_join jt l r).cols.count "SampleID"
      = (l.join r "SampleID" jt).cols.count "SampleID" := by
  unfold safe_join
  dsimp only
  split_ifs with hm
  · show ((l.join r "SampleID" jt).cols.filter (fun x => x ≠ "SampleID_right")).count
        "SampleID" = _
    exact List.count_filter (by decide)
  · rfl

theorem mem_cols_of_mem_safe_join {l r : DataFrame} (jt : JoinType) {c : String}
    (h : c ∈ (safe_join jt l r).cols) : c ∈ (l.join r "SampleID" jt).cols := by
  unfold safe_join at h
  dsimp only at h
  split_ifs at h with hm
  · simp only [DataFrame.drop, List.mem_filter] at h
    exact h.1
  · exact h

theorem count_map_withSuffix_zero (base : List String) (cs : List String)
    (h : ∀ c ∈ cs, withSuffix base c ≠ "SampleID") :
    (cs.map (withSuffix base)).count "SampleID" = 0 := by
  rw [List.count_eq_zero]
  intro hmem
  rw [List.mem_map] at hmem
  obtain ⟨c, hc, hcc⟩ := hmem
  exact h c hc hcc

theorem count_SampleID_join (jt : JoinType) {l r : DataFrame}
    (hlc : l.cols.count "SampleID" = 1) (hrc : r.cols.count "SampleID" = 1) :
    (l.join r "SampleID" jt).cols.count "SampleID" = 1 := by
  have hfilter : ∀ cs : List String,
      ∀ c ∈ cs.filter (fun c => c ≠ "SampleID"), withSuffix l.cols c ≠ "SampleID" := by
    intro cs c hc
    rw [List.mem_filter] at hc
    exact withSuffix_ne_SampleID (by simpa using hc.2)
  cases jt
  case inner =>
    show (l.cols ++ (r.cols.filter (fun c => c ≠ "SampleID")).map (withSuffix l.cols)).count
        "SampleID" = 1
    rw [List.count_append, hlc, count_map_withSuffix_zero _ _ (hfilter r.cols)]
  case left =>
    show (l.cols ++ (r.cols.filter (fun c => c ≠ "SampleID")).map (withSuffix l.cols)).count
        "SampleID" = 1
    rw [List.count_append, hlc, count_map_withSuffix_zero _ _ (hfilter r.cols)]
  case right =>
    show ((l.cols.filter (fun c => c ≠ "SampleID")).map (withSuffix r.cols)
          ++ r.cols).count "SampleID" = 1
    have hfilter2 : ∀ c ∈ l.cols.filter (fun c => c ≠ "SampleID"),
        withSuffix r.cols c ≠ "SampleID" := by
      intro c hc
      rw [List.mem_filter] at hc
      exact withSuffix_ne_SampleID (by simpa using hc.2)
    rw [List.count_append, hrc, count_map_withSuffix_zero _ _ hfilter2]
  case full =>
    show (l.cols ++ r.cols.map (withSuffix l.cols)).count "SampleID" = 1
    rw [List.count_append, hlc]
    have hall : ∀ c ∈ r.cols, withSuffix l.cols c ≠ "SampleID" := by
      intro c _
      by_cases hc : c = "SampleID"
      · subst hc
        unfold withSuffix
        rw [if_pos ?_]
        · exact append_right_ne_SampleID _
        · have : 0 < l.cols.count "SampleID" := by rw [hlc]; exact Nat.one_pos
          exact List.count_pos_iff.mp this
      · exact withSuffix_ne_SampleID hc
    rw [count_map_withSuffix_zero _ _ hall]

theorem join_preserves_left_cols (jt : JoinType) {l r : DataFrame} {c : String}
    (hc : c ∈ l.cols) (hck : c ≠ "SampleID") :
    c ∈ (l.join r "SampleID" jt).cols := by
  cases jt
  case inner =>
    show c ∈ l.cols ++ (r.cols.filter (fun c => c ≠ "SampleID")).map (withSuffix l.cols)
    exact List.mem_append_left _ hc
  case left =>
    show c ∈ l.cols ++ (r.cols.filter (fun c => c ≠ "SampleID")).map (withSuffix l.cols)
    exact List.mem_append_left _ hc
  case full =>
    show c ∈ l.cols ++ r.cols.map (withSuffix l.cols)
    exact List.mem_append_left _ hc
  case right =>
    show c ∈ (l.cols.filter (fun c => c ≠ "SampleID")).map (withSuffix r.cols) ++ r.cols
    by_cases hcr : c ∈ r.cols
    · exact List.mem_append_right _ hcr
    · apply List.mem_append_left
      rw [List.mem_map]
      refine ⟨c, ?_, ?_⟩
      · rw [List.mem_filter]
        exact ⟨hc, by simpa using hck⟩
      · unfold withSuffix
        rw [if_neg hcr]

theorem join_covers_right_cols (jt : JoinType) {l r : DataFrame} {c : String}
    (hc : c ∈ r.cols) (hck : c ≠ "SampleID") :
    c ∈ (l.join r "SampleID" jt).cols ∨ c ++ "_right" ∈ (l.join r "SampleID" jt).cols := by
  have hsfx : ∀ cols2 : List String,
      withSuffix l.cols c ∈ cols2 → c ∈ cols2 ∨ c ++ "_right" ∈ cols2 := by
    intro cols2 h
    unfold withSuffix at h
    split_ifs at h with hmem
    · right; exact h
    · left; exact h
  cases jt
  case right =>
    left
    show c ∈ (l.cols.filter (fun c => c ≠ "SampleID")).map (withSuffix r.cols) ++ r.cols
    exact List.mem_append_right _ hc
  case inner =>
    apply hsfx
    show withSuffix l.cols c
        ∈ l.cols ++ (r.cols.filter (fun c => c ≠ "SampleID")).map (withSuffix l.cols)
    apply List.mem_append_right
    rw [List.mem_map]
    exact ⟨c, by rw [List.mem_filter]; exact ⟨hc, by simpa using hck⟩, rfl⟩
  case left =>
    apply hsfx
    show withSuffix l.cols c
        ∈ l.cols ++ (r.cols.filter (fun c => c ≠ "SampleID")).map (withSuffix l.cols)
    apply List.mem_append_right
    rw [List.mem_map]
    exact ⟨c, by rw [List.mem_filter]; exact ⟨hc, by simpa using hck⟩, rfl⟩
  case full =>
    apply hsfx
    show withSuffix l.cols c ∈ l.cols ++ r.cols.map (withSuffix l.cols)
    apply List.mem_append_right
    rw [List.mem_map]
    exact ⟨c, hc, rfl⟩

theorem join_cols_origin (jt : JoinType) {l r : DataFrame} {c : String}
    (hc : c ∈ (l.join r "SampleID" jt).cols) :
    c ∈ l.cols ∨ ∃ d ∈ r.cols, c = d ∨ c = d ++ "_right" := by
  have hsfx : ∀ d : String, ∀ base : List String,
      c = withSuffix base d → c = d ∨ c = d ++ "_right" := by
    intro d base h
    unfold withSuffix at h
    split_ifs at h with hmem
    · right; exact h
    · left; exact h
  cases jt
  case inner =>
    rcases List.mem_append.mp hc with h | h
    · left; exact h
    · right
      rw [List.mem_map] at h
      obtain ⟨d, hd, hdd⟩ := h
      rw [List.mem_filter] at hd
      exact ⟨d, hd.1, hsfx d l.cols hdd.symm⟩
  case left =>
    rcases List.mem_append.mp hc with h | h
    · left; exact h
    · right
      rw [List.mem_map] at h
      obtain ⟨d, hd, hdd⟩ := h
      rw [List.mem_filter] at hd
      exact ⟨d, hd.1, hsfx d l.cols hdd.symm⟩
  case full =>
    rcases List.mem_append.mp hc with h | h
    · left; exact h
    · right
      rw [List.mem_map] at h
      obtain ⟨d, hd, hdd⟩ := h
      exact ⟨d, hd, hsfx d l.cols hdd.symm⟩
  case right =>
    rcases List.mem_append.mp hc with h | h
    · rw [List.mem_map] at h
      obtain ⟨d, hd, hdd⟩ := h
      rw [List.mem_filter] at hd
      rcases hsfx d r.cols hdd.symm with h1 | h1
      · left; rw [h1]; exact hd.1
      · have hdr : d ∈ r.cols := by
          by_contra hnr
          have hcd : c = d := by
            rw [← hdd]
            unfold withSuffix
            rw [if_neg hnr]
          rw [hcd] at h1
          have hlen := congrArg String.length h1
          rw [String.length_append] at hlen
          have h6 : "_right".length = 6 := by decide
          omega
        right
        exact ⟨d, hdr, Or.inr h1⟩
    · right
      exact ⟨c, h, Or.inl rfl⟩

/-! ### The column invariant of the whole fold -/

theorem safe_join_cols_step (jt : JoinType) {acc rdf : DataFrame}
    (hac : acc.cols.count "SampleID" = 1)
    (han : "SampleID_right" ∉ acc.cols)
    (hrc : rdf.cols.count "SampleID" = 1)
    (hrn : "SampleID_right" ∉ rdf.cols) :
    (safe_join jt acc rdf).cols.count "SampleID" = 1 ∧
    (∀ c ∈ acc.cols, c ≠ "SampleID" → c ∈ (safe_join jt acc rdf).cols) ∧
    (∀ c ∈ rdf.cols, c ≠ "SampleID" →
      c ∈ (safe_join jt acc rdf).cols ∨ c ++ "_right" ∈ (safe_join jt acc rdf).cols) ∧
    (∀ c ∈ (safe_join jt acc rdf).cols, c ≠ "SampleID" →
      c ∈ acc.cols ∨ ∃ d ∈ rdf.cols, c = d ∨ c = d ++ "_right") := by
  refine ⟨?_, ?_, ?_, ?_⟩
  · rw [count_SampleID_safe_join]
    exact count_SampleID_join jt hac hrc
  · intro c hc hck
    have hcn : c ≠ "SampleID_right" := fun h => han (h ▸ hc)
    exact mem_safe_join_cols jt hcn (join_preserves_left_cols jt hc hck)
  · intro c hc hck
    have hcn : c ≠ "SampleID_right" := fun h => hrn (h ▸ hc)
    have hcrn : c ++ "_right" ≠ "SampleID_right" :=
      fun h => hck (append_right_eq_SampleID_right.mp h)
    rcases join_covers_right_cols jt hc hck with h | h
    · exact Or.inl (mem_safe_join_cols jt hcn h)
    · exact Or.inr (mem_safe_join_cols jt hcrn h)
  · intro c hc _
    exact join_cols_origin jt (mem_cols_of_mem_safe_join jt hc)

theorem foldl_cols_invariant (jt : JoinType) :
    ∀ (rest : List DataFrame) (acc : DataFrame) (processed : List DataFrame),
      acc.cols.count "SampleID" = 1 →
      "SampleID_right" ∉ acc.cols →
      (∀ df ∈ rest, df.cols.count "SampleID" = 1 ∧ "SampleID_right" ∉ df.cols) →
      (∀ c, (∃ df ∈ processed, c ∈ df.cols) → c ≠ "SampleID" →
        c ∈ acc.cols ∨ c ++ "_right" ∈ acc.cols) →
      (∀ c ∈ acc.cols, c ≠ "SampleID" →
        ∃ df ∈ processed, ∃ d ∈ df.cols, c = d ∨ c = d ++ "_right") →
      (rest.foldl (safe_join jt) acc).cols.count "SampleID" = 1 ∧
      (∀ c, (∃ df ∈ processed ++ rest, c ∈ df.cols) → c ≠ "SampleID" →
        c ∈ (rest.foldl (safe_join jt) acc).cols ∨
          c ++ "_right" ∈ (rest.foldl (safe_join jt) acc).cols) ∧
      (∀ c ∈ (rest.foldl (safe_join jt) acc).cols, c ≠ "SampleID" →
        ∃ df ∈ processed ++ rest, ∃ d ∈ df.cols, c = d ∨ c = d ++ "_right") := by
  intro rest
  induction rest with
  | nil =>
    intro acc processed h1 _ _ h4 h5
    simp only [List.foldl_nil, List.append_nil]
    exact ⟨h1, h4, h5⟩
  | cons r rest ih =>
    intro acc processed h1 h2 h3 h4 h5
    obtain ⟨hrc, hrn⟩ := h3 r (by simp)
    obtain ⟨s1, s2, s3, s4⟩ := safe_join_cols_step jt h1 h2 hrc hrn
    have hstep := ih (safe_join jt acc r) (processed ++ [r]) s1
      (safe_join_no_SampleID_right jt acc r)
      (fun df hdf => h3 df (by simp [hdf]))
      ?_ ?_
    · simp only [List.foldl_cons]
      refine ⟨hstep.1, ?_, ?_⟩
      · intro c hc hck
        apply hstep.2.1 c ?_ hck
        obtain ⟨df, hdf, hcdf⟩ := hc
        refine ⟨df, ?_, hcdf⟩
        simp only [List.mem_append, List.mem_cons, List.mem_singleton] at hdf ⊢
        tauto
      · intro c hc hck
        obtain ⟨df, hdf, rest2⟩ := hstep.2.2 c hc hck
        refine ⟨df, ?_, rest2⟩
        simp only [List.mem_append, List.mem_cons, List.mem_singleton] at hdf ⊢
        tauto
    · -- forward invariant for `processed ++ [r]`
      intro c hc hck
      obtain ⟨df, hdf, hcdf⟩ := hc
      rcases List.mem_append.mp hdf with hdf | hdf
      · rcases h4 c ⟨df, hdf, hcdf⟩ hck with h | h
        · exact Or.inl (s2 c h hck)
        · exact Or.inr (s2 _ h (append_right_ne_SampleID c))
      · rw [List.mem_singleton] at hdf
        subst hdf
        exact s3 c hcdf hck
    · -- backward invariant for `processed ++ [r]`
      intro c hc hck
      rcases s4 c hc hck with h | h
      · obtain ⟨df, hdf, hd⟩ := h5 c h hck
        exact ⟨df, List.mem_append_left _ hdf, hd⟩
      · obtain ⟨d, hd, hcd⟩ := h
        exact ⟨r, List.mem_append_right _ (List.mem_singleton.mpr rfl), d, hd, hcd⟩

/-- C4: for every list of input tables in which `SampleID` occurs exactly
once per header and no header contains the reserved name
`SampleID_right`, a successful merge (any join mode) produces exactly
one output table whose header contains `SampleID` exactly once, and
whose other columns are exactly the union of the inputs' non-key columns
up to the join's `_right` suffixing: every input non-key column appears
(possibly suffixed), and every output non-key column is an input column
or a suffixed input column. -/
theorem C4_merged_header_key_once_union_columns
    (dfs : List DataFrame) (jt : JoinType) (out : DataFrame)
    (hkey : ∀ df ∈ dfs, df.cols.count "SampleID" = 1)
    (hnsr : ∀ df ∈ dfs, "SampleID_right" ∉ df.cols)
    (hm : mergeTables dfs jt = .ok out) :
    out.cols.count "SampleID" = 1 ∧
    (∀ df ∈ dfs, ∀ c ∈ df.cols, c ≠ "SampleID" →
      c ∈ out.cols ∨ c ++ "_right" ∈ out.cols) ∧
    (∀ c ∈ out.cols, c ≠ "SampleID" →
      ∃ df ∈ dfs, ∃ d ∈ df.cols, c = d ∨ c = d ++ "_right") := by
  obtain ⟨_, d, rest, rfl, rfl⟩ := mergeTables_ok_inv hm
  obtain ⟨w1, w2, w3⟩ := foldl_cols_invariant jt rest d [d]
    (hkey d (by simp)) (hnsr d (by simp))
    (fun df hdf => ⟨hkey df (by simp [hdf]), hnsr df (by simp [hdf])⟩)
    (fun c hc _ => by
      obtain ⟨df, hdf, hcdf⟩ := hc
      rw [List.mem_singleton] at hdf
      subst hdf
      exact Or.inl hcdf)
    (fun c hc _ => ⟨d, List.mem_singleton.mpr rfl, c, hc, Or.inl rfl⟩)
  refine ⟨w1, ?_, ?_⟩
  · intro df hdf c hc hck
    apply w2 c ?_ hck
    refine ⟨df, ?_, hc⟩
    simp only [List.singleton_append]
    exact hdf
  · intro c hc hck
    obtain ⟨df, hdf, hd⟩ := w3 c hc hck
    refine ⟨df, ?_, hd⟩
    simpa using hdf

theorem C4_merged_header_key_once_union_columns_witness :
    (∀ df ∈ [({ cols := ["SampleID", "X"], rows := [[some "1", some "10"]] } : DataFrame),
              { cols := ["SampleID", "X"], rows := [[some "2", some "20"]] }],
        df.cols.count "SampleID" = 1) ∧
    (∀ df ∈ [({ cols := ["SampleID", "X"], rows := [[some "1", some "10"]] } : DataFrame),
              { cols := ["SampleID", "X"], rows := [[some "2", some "20"]] }],
        "SampleID_right" ∉ df.cols) ∧
    mergeTables
        [{ cols := ["SampleID", "X"], rows := [[some "1", some "10"]] },
         { cols := ["SampleID", "X"], rows := [[some "2", some "20"]] }] .full
      = .ok { cols := ["SampleID", "X", "X_right"], rows := [[some "1", some "10", none], [none, none, some "20"]] } ∧
    (({ cols := ["SampleID", "X", "X_right"], rows := [[some "1", some "10", none], [none, none, some "20"]] } : DataFrame).cols.count "SampleID" = 1 ∧
      (∀ df ∈ [({ cols := ["SampleID", "X"], rows := [[some "1", some "10"]] } : DataFrame),
               { cols := ["SampleID", "X"], rows := [[some "2", some "20"]] }],
        ∀ c ∈ df.cols, c ≠ "SampleID" →
          c ∈ ({ cols := ["SampleID", "X", "X_right"], rows := [[some "1", some "10", none], [none, none, some "20"]] } : DataFrame).cols ∨
          c ++ "_right" ∈ ({ cols := ["SampleID", "X", "X_right"], rows := [[some "1", some "10", none], [none, none, some "20"]] } : DataFrame).cols) ∧
      (∀ c ∈ ({ cols := ["SampleID", "X", "X_right"], rows := [[some "1", some "10", none], [none, none, some "20"]] } : DataFrame).cols,
        c ≠ "SampleID" →
        ∃ df ∈ [({ cols := ["SampleID", "X"], rows := [[some "1", some "10"]] } : DataFrame),
                { cols := ["SampleID", "X"], rows := [[some "2", some "20"]] }],
          ∃ d ∈ df.cols, c = d ∨ c = d ++ "_right")) :=
  ⟨by decide, by decide, by decide,
    C4_merged_header_key_once_union_columns
      [{ cols := ["SampleID", "X"], rows := [[some "1", some "10"]] },
       { cols := ["SampleID", "X"], rows := [[some "2", some "20"]] }] .full
      { cols := ["SampleID", "X", "X_right"], rows := [[some "1", some "10", none], [none, none, some "20"]] }
      (by decide) (by decide) (by decide)⟩

end MergeTsv

